import Mathlib

/-!
Verification of the Compose (composeml) window label search engine and
label-table transforms, as described by the repository's documentation.
The repository ships only documentation notebooks, CI configuration and
packaging metadata; the engine itself (the `composeml` package with
`LabelMaker.search` and the `LabelTimes` transforms) is not among the
provided files, so every operation below is modelled from the
specification's own description of the engine.

Times and durations are integers (e.g. minutes); records are rows of a
time-indexed table with an entity key.
-/

/-- Modelled from the spec: the missing `composeml` package's input rows.
A Record is "one observation with an entity identifier, a timestamp, and
arbitrary additional fields"; the extra fields are represented by a single
numeric `amount` field, as in the transaction tutorials. -/
structure Record where
  entity : Nat
  time : Int
  amount : Int
deriving DecidableEq

/-- Modelled from the spec: a label value in the output table.  The search
produces numeric labels; `threshold` turns them into booleans and `bin`
(with caller-supplied names) into strings. -/
inductive LabelValue where
  | int (n : Int)
  | bool (b : Bool)
  | str (s : String)
deriving DecidableEq

/-- Modelled from the spec: one output record of the missing engine, a
label row `(entity_id, cutoff_time, label_value)`. -/
structure LabelRow where
  entity : Nat
  cutoff_time : Int
  label : LabelValue
deriving DecidableEq

/-- Modelled from the spec: the provenance metadata attached to a label
table (the search parameters used), "an immutable side-record carried
alongside the table, propagated by copy through every transform". -/
structure SearchSettings where
  function_name : String
  window_size : Int
  gap : Int
  num_examples_per_instance : Int
deriving DecidableEq

/-- Modelled from the spec: the missing `LabelTimes` label table — the
aggregate of all label rows, the name of the label column, the provenance
metadata recorded at search time, and the names of the transforms applied
since (also provenance, shown by `describe`). -/
structure LabelTimes where
  rows : List LabelRow
  label_col : String
  settings : SearchSettings
  transforms : List String
deriving DecidableEq

/-- Modelled from the spec: error taxonomy of the missing engine —
UnsortedInputError (precondition violation on input ordering) and
ConfigurationError (invalid parameters detected before processing). -/
inductive SearchError where
  | unsortedInput
  | configuration
deriving DecidableEq

/-- Modelled from the spec: the missing engine's `minimum_data` search
option — "either a fixed timestamp, a duration offset from the first
record, or a per-entity mapping/lookup of starting timestamps";
unspecified defaults to the entity's first record timestamp. -/
inductive MinData where
  | default
  | fixed (t : Int)
  | offset (d : Int)
  | table (m : List (Nat × Int))
deriving DecidableEq

/-- Modelled from the spec: resolution of `minimum_data` into an entity's
first cutoff time, "resolving a mapping lookup if a per-entity value is
supplied; defaulting to the entity's first record timestamp if
unspecified". -/
def resolveMinData (md : MinData) (e : Nat) (firstTime : Int) : Int :=
  match md with
  | .default => firstTime
  | .fixed t => t
  | .offset d => firstTime + d
  | .table m =>
    match m.lookup e with
    | some t => t
    | none => firstTime

/-- Modelled from the spec: membership of a time point in the half-open
window `[cutoff_time, cutoff_time + window_size)`. -/
def inWindow (c ws t : Int) : Bool :=
  decide (c ≤ t) && decide (t < c + ws)

/-- Modelled from the spec: the record subset falling inside one window —
"all records with timestamp in `[cutoff_time, cutoff_time + window_size)`"
— the subset handed to the labeling function. -/
def windowRecords (part : List Record) (c ws : Int) : List Record :=
  part.filter (fun r => inWindow c ws r.time)

/-- Modelled from the spec: how many cutoff times the per-entity loop
visits when starting at `t0`, stepping by `gap` and stopping once the
cutoff passes the bound `B` (`maximum_data` when set, otherwise the last
record's timestamp). -/
def numCutoffs (t0 B g : Int) : Nat :=
  if t0 ≤ B then ((B - t0) / g).toNat + 1 else 0

/-- Modelled from the spec: the candidate cutoff times visited for one
entity — `t0, t0 + gap, t0 + 2 * gap, …`, each at most the bound. -/
def cutoffs (t0 B g : Int) : List Int :=
  (List.range (numCutoffs t0 B g)).map (fun (i : Nat) => t0 + (i : Int) * g)

/-- Timestamp of the first record of a partition (partitions are
nonempty in the engine; `0` is a don't-care default). -/
def firstTimeOf (part : List Record) : Int :=
  match part with
  | [] => 0
  | r :: _ => r.time

/-- Timestamp of the last record of a partition. -/
def lastTimeOf (part : List Record) : Int :=
  match part.getLast? with
  | some r => r.time
  | none => 0

/-- Modelled from the spec: whether a partition's timestamps are
monotonically non-decreasing (the input-ordering precondition). -/
def isSortedTimes (part : List Record) : Bool :=
  match part with
  | [] => true
  | [_] => true
  | a :: b :: rs => decide (a.time ≤ b.time) && isSortedTimes (b :: rs)

/-- Modelled from the spec: step 1 of the algorithm — partition the input
by entity key, preserving sort order within each partition. -/
def entityPartition (df : List Record) (e : Nat) : List Record :=
  df.filter (fun r => decide (r.entity = e))

/-- Entity keys in order of first appearance in the input. -/
def uniqueKeys (seen : List Nat) : List Record → List Nat
  | [] => []
  | r :: rs =>
    if r.entity ∈ seen then uniqueKeys seen rs
    else r.entity :: uniqueKeys (r.entity :: seen) rs

/-- Modelled from the spec: `num_examples_per_instance` — "maximum label
rows to emit per entity; `-1` (or equivalent) means unbounded". -/
def applyNumBound (n : Int) (l : List LabelRow) : List LabelRow :=
  if n < 0 then l else l.take n.toNat

/-- Modelled from the spec: the missing `LabelMaker` constructor
configuration — the labeling function (a pure records-in, label-out
callable, carried together with its name), the optional `label_name`
rename for the output label column, and `window_size`. -/
structure LabelMaker where
  labeling_function : List Record → Int
  function_name : String
  label_name : Option String
  window_size : Int

/-- Modelled from the spec: the missing `LabelMaker.search` invocation
options; `gap` "defaults to `window_size` (non-overlapping windows) when
unspecified" and `drop_empty` controls whether windows containing zero
records are omitted from the output. -/
structure SearchParams where
  num_examples_per_instance : Int
  minimum_data : MinData
  maximum_data : Option Int
  gap : Option Int
  drop_empty : Bool

/-- Modelled from the spec: the bound on the last admissible cutoff time
for one entity — `maximum_data` when set, otherwise the loop stops when
no further records exist at or after the cutoff, i.e. once the cutoff
passes the entity's last record timestamp. -/
def entityBound (p : SearchParams) (part : List Record) : Int :=
  match p.maximum_data with
  | some m => m
  | none => lastTimeOf part

/-- Modelled from the spec: steps 2–4 of the missing engine's algorithm
for one entity — compute the first cutoff time from `minimum_data`, then
repeatedly select the records in `[cutoff, cutoff + window_size)`, invoke
the labeling function on that subset, emit a label row unless the subset
is empty and `drop_empty` is set, and advance the cutoff by `gap`;
stopping per the termination rules, with the emitted rows capped by
`num_examples_per_instance` when bounded. -/
def searchEntity (lm : LabelMaker) (p : SearchParams) (e : Nat)
    (part : List Record) : List LabelRow :=
  let t0 := resolveMinData p.minimum_data e (firstTimeOf part)
  let g := p.gap.getD lm.window_size
  let windows := (cutoffs t0 (entityBound p part) g).map
    (fun c => (c, windowRecords part c lm.window_size))
  let kept := if p.drop_empty then windows.filter (fun w => !w.2.isEmpty) else windows
  applyNumBound p.num_examples_per_instance
    (kept.map (fun w => ⟨e, w.1, .int (lm.labeling_function w.2)⟩))

/-- Modelled from the spec: the missing `LabelMaker.search` — fails fast
with an UnsortedInputError when some entity partition's timestamps are
not monotonically non-decreasing, otherwise concatenates all entities'
label rows preserving per-entity emission order, names the label column
(`label_name` when given, else the labeling function's name), and
attaches the search provenance metadata. -/
def search (lm : LabelMaker) (p : SearchParams) (df : List Record) :
    Except SearchError LabelTimes :=
  let es := uniqueKeys [] df
  if es.all (fun e => isSortedTimes (entityPartition df e)) then
    .ok
      { rows := (es.map (fun e => searchEntity lm p e (entityPartition df e))).flatten
        label_col := lm.label_name.getD lm.function_name
        settings :=
          { function_name := lm.function_name
            window_size := lm.window_size
            gap := p.gap.getD lm.window_size
            num_examples_per_instance := p.num_examples_per_instance }
        transforms := [] }
  else .error .unsortedInput

/-- Numeric view of a label value, used by the transforms. -/
def intOfLabel : LabelValue → Int
  | .int n => n
  | .bool b => if b then 1 else 0
  | .str _ => 0

/-- Modelled from the spec: the missing `LabelTimes.threshold` transform —
maps each label value to a boolean via `value > threshold`, replacing the
label column on a copy of the table. -/
def thresholdT (lt : LabelTimes) (v : Int) : LabelTimes :=
  { lt with
    rows := lt.rows.map (fun r => { r with label := .bool (decide (v < intOfLabel r.label)) })
    transforms := lt.transforms ++ ["threshold"] }

/-- Modelled from the spec: the missing `LabelTimes.apply_lead` transform —
shifts every cutoff time earlier by a fixed duration without altering
label values. -/
def applyLeadT (lt : LabelTimes) (d : Int) : LabelTimes :=
  { lt with
    rows := lt.rows.map (fun r => { r with cutoff_time := r.cutoff_time - d })
    transforms := lt.transforms ++ ["apply_lead"] }

/-- Modelled from the spec: the `bins` argument of the missing
`LabelTimes.bin` — either a number of bins or a list of custom edges. -/
inductive Bins where
  | count (n : Nat)
  | edges (es : List Int)
deriving DecidableEq

/-- Number of bins described by a `Bins` argument: a count is itself, a
list of edges delimits one bin fewer than it has edges. -/
def Bins.numBins : Bins → Nat
  | .count n => n
  | .edges es => es.length - 1

/-- Smallest value of a list of integers (0 when empty). -/
def minVal (vals : List Int) : Int :=
  match vals with
  | [] => 0
  | v :: vs => vs.foldl min v

/-- Largest value of a list of integers (0 when empty). -/
def maxVal (vals : List Int) : Int :=
  match vals with
  | [] => 0
  | v :: vs => vs.foldl max v

/-- Modelled from the spec: the interval assignment of the missing
`LabelTimes.bin` — the index of the bin a value falls in, for equal-width,
custom-edged, or quantile-based bins.  The exact boundary arithmetic is
underdetermined by the spec, so a concrete choice is made; no claim
depends on it. -/
def binIndex (b : Bins) (quantiles : Bool) (vals : List Int) (v : Int) : Nat :=
  let pos :=
    match b with
    | .edges es => (es.drop 1).countP (fun e => decide (e < v))
    | .count n =>
      if quantiles then
        if vals.length = 0 then 0 else vals.countP (fun w => decide (w < v)) * n / vals.length
      else
        let lo := minVal vals
        let hi := maxVal vals
        if hi ≤ lo then 0 else ((v - lo) * (n : Int) / (hi - lo + 1)).toNat
  min (b.numBins - 1) pos

/-- Modelled from the spec: the missing `LabelTimes.bin` transform —
discretizes the numeric label column into intervals, optionally assigning
caller-supplied bin names; when names are supplied their number must
equal the number of bins, else it fails with a ConfigurationError before
any processing of the table begins. -/
def binT (lt : LabelTimes) (b : Bins) (quantiles : Bool)
    (names : Option (List String)) : Except SearchError LabelTimes :=
  match names with
  | some ns =>
    if ns.length ≠ b.numBins then .error .configuration
    else
      .ok
        { lt with
          rows := lt.rows.map (fun r =>
            { r with label := .str (ns.getD
                (binIndex b quantiles (lt.rows.map (fun s => intOfLabel s.label))
                  (intOfLabel r.label)) "") })
          transforms := lt.transforms ++ ["bin"] }
  | none =>
    .ok
      { lt with
        rows := lt.rows.map (fun r =>
          { r with
              label := LabelValue.int
                (binIndex b quantiles (lt.rows.map (fun s => intOfLabel s.label))
                  (intOfLabel r.label) : Int) })
        transforms := lt.transforms ++ ["bin"] }

/-- Modelled from the spec: the missing `LabelTimes.sample` transform —
draws a random subset of rows of a given size, reproducibly from a seed;
the pseudo-random draw is modelled as a seed-determined rotation followed
by a prefix. -/
def sampleT (lt : LabelTimes) (n : Nat) (seed : Nat) : LabelTimes :=
  { lt with
    rows := (lt.rows.rotate seed).take n
    transforms := lt.transforms ++ ["sample"] }

/-- Modelled from the spec: one downstream transform call — threshold,
lead shift, bin, or sample. -/
inductive Transform where
  | threshold (v : Int)
  | applyLead (d : Int)
  | binned (b : Bins) (quantiles : Bool) (names : Option (List String))
  | sample (n : Nat) (seed : Nat)

/-- Apply one transform to one label table; `bin` may fail with a
ConfigurationError, the others always succeed. -/
def applyTransform : Transform → LabelTimes → Except SearchError LabelTimes
  | .threshold v, lt => .ok (thresholdT lt v)
  | .applyLead d, lt => .ok (applyLeadT lt d)
  | .binned b q ns, lt => binT lt b q ns
  | .sample n s, lt => .ok (sampleT lt n s)

/-- Modelled from the spec: the experimentation session — a store of
label tables; a transform call reads one table and, on success, appends
the new table, never mutating any existing one ("each transform takes a
label table and returns a new label table (no mutation)"). -/
def transformStep (store : List LabelTimes) (i : Nat) (tr : Transform) :
    List LabelTimes :=
  match (store.get? i).map (applyTransform tr) with
  | some (.ok lt2) => store ++ [lt2]
  | _ => store

/-- A concrete sorted input: one entity with records at minutes 0, 5, 10
and 15 (the spec's example scenario). -/
def exRecords : List Record := [⟨1, 0, 10⟩, ⟨1, 5, 20⟩, ⟨1, 10, 30⟩, ⟨1, 15, 40⟩]

/-- A concrete label maker: the tutorials' `total_spent` labeling
function with a 10-minute window. -/
def exMaker : LabelMaker :=
  ⟨fun rs => (rs.map (fun r => r.amount)).sum, "total_spent", none, 10⟩

/-- Concrete search parameters: unbounded examples, first cutoff fixed at
minute 0, gap of 10, empty windows dropped. -/
def exParams : SearchParams := ⟨-1, .fixed 0, none, some 10, true⟩

/-- Concrete search parameters capping the output at one row per entity,
with empty windows kept. -/
def exParamsCapped : SearchParams := ⟨1, .fixed 0, none, some 10, false⟩

/-- A concrete input whose single entity partition is not sorted by
timestamp. -/
def exUnsorted : List Record := [⟨1, 5, 10⟩, ⟨1, 0, 20⟩]

/-- A concrete label table with two numeric label rows. -/
def exTable : LabelTimes :=
  ⟨[⟨1, 0, .int 30⟩, ⟨1, 10, .int 70⟩], "total_spent", ⟨"total_spent", 10, 10, -1⟩, []⟩

theorem applyNumBound_subset (n : Int) (l : List LabelRow) :
    applyNumBound n l ⊆ l := by
  unfold applyNumBound
  split
  · exact fun _ h => h
  · exact List.take_subset _ _

theorem mem_cutoffs {t0 B g c : Int} :
    c ∈ cutoffs t0 B g ↔ ∃ i : Nat, i < numCutoffs t0 B g ∧ c = t0 + (i : Int) * g := by
  constructor
  · intro h
    rw [cutoffs, List.mem_map] at h
    obtain ⟨i, hi, hci⟩ := h
    exact ⟨i, List.mem_range.mp hi, hci.symm⟩
  · rintro ⟨i, hi, rfl⟩
    rw [cutoffs, List.mem_map]
    exact ⟨i, List.mem_range.mpr hi, rfl⟩

theorem cutoffs_ge_start {t0 B g c : Int} (hg : 0 < g)
    (hc : c ∈ cutoffs t0 B g) : t0 ≤ c := by
  obtain ⟨i, _, rfl⟩ := mem_cutoffs.mp hc
  have : (0 : Int) ≤ (i : Int) * g := mul_nonneg (Int.natCast_nonneg i) hg.le
  linarith

theorem cutoffs_le_bound {t0 B g c : Int} (hg : 0 < g)
    (hc : c ∈ cutoffs t0 B g) : c ≤ B := by
  obtain ⟨i, hi, rfl⟩ := mem_cutoffs.mp hc
  unfold numCutoffs at hi
  by_cases ht : t0 ≤ B
  · rw [if_pos ht] at hi
    have h1 : i ≤ ((B - t0) / g).toNat := Nat.lt_succ_iff.mp hi
    have h2 : ((i : Int)) ≤ (B - t0) / g := by
      have hnn : (0 : Int) ≤ (B - t0) / g :=
        Int.ediv_nonneg (sub_nonneg.mpr ht) hg.le
      have := Int.toNat_of_nonneg hnn
      calc ((i : Int)) ≤ (((B - t0) / g).toNat : Int) := by exact_mod_cast h1
        _ = (B - t0) / g := this
    have h3 : (i : Int) * g ≤ B - t0 := (Int.le_ediv_iff_mul_le hg).mp h2
    linarith
  · rw [if_neg ht] at hi
    exact absurd hi (Nat.not_lt_zero i)

theorem searchEntity_mem {lm : LabelMaker} {p : SearchParams} {e : Nat}
    {part : List Record} {row : LabelRow}
    (hrow : row ∈ searchEntity lm p e part) :
    ∃ c ∈ cutoffs (resolveMinData p.minimum_data e (firstTimeOf part))
        (entityBound p part) (p.gap.getD lm.window_size),
      row = ⟨e, c, .int (lm.labeling_function (windowRecords part c lm.window_size))⟩
      ∧ (p.drop_empty = true → windowRecords part c lm.window_size ≠ []) := by
  unfold searchEntity at hrow
  have h1 := applyNumBound_subset _ _ hrow
  rw [List.mem_map] at h1
  obtain ⟨w, hw, hweq⟩ := h1
  cases hd : p.drop_empty
  · rw [hd] at hw
    simp only [Bool.false_eq_true, if_false, List.mem_map] at hw
    obtain ⟨c, hc, hwc⟩ := hw
    refine ⟨c, hc, ?_, ?_⟩
    · rw [← hweq, ← hwc]
    · intro h
      exact absurd h (by simp)
  · rw [hd] at hw
    simp only [if_true, List.mem_filter, List.mem_map] at hw
    obtain ⟨⟨c, hc, hwc⟩, hne⟩ := hw
    refine ⟨c, hc, ?_, ?_⟩
    · rw [← hweq, ← hwc]
    · intro _
      rw [← hwc] at hne
      simpa [List.isEmpty_iff] using hne

theorem search_ok_elim {lm : LabelMaker} {p : SearchParams} {df : List Record}
    {lt : LabelTimes} (h : search lm p df = .ok lt) :
    lt.rows = ((uniqueKeys [] df).map
        (fun e => searchEntity lm p e (entityPartition df e))).flatten
    ∧ lt.label_col = lm.label_name.getD lm.function_name := by
  simp only [search] at h
  split at h
  · injection h with h
    rw [← h]
    exact ⟨rfl, rfl⟩
  · exact absurd h (by simp)

theorem uniqueKeys_complete (l : List Record) :
    ∀ (seen : List Nat) (r : Record), r ∈ l →
      r.entity ∈ seen ∨ r.entity ∈ uniqueKeys seen l := by
  induction l with
  | nil => intro seen r hr; exact absurd hr (List.not_mem_nil r)
  | cons x xs ih =>
    intro seen r hr
    rw [List.mem_cons] at hr
    unfold uniqueKeys
    by_cases hx : x.entity ∈ seen
    · rw [if_pos hx]
      rcases hr with hr | hr
      · exact Or.inl (hr ▸ hx)
      · exact ih seen r hr
    · rw [if_neg hx]
      rcases hr with hr | hr
      · exact Or.inr (hr ▸ List.mem_cons_self x.entity _)
      · rcases ih (x.entity :: seen) r hr with h | h
        · rw [List.mem_cons] at h
          rcases h with h | h
          · exact Or.inr (h ▸ List.mem_cons_self x.entity _)
          · exact Or.inl h
        · exact Or.inr (List.mem_cons_of_mem _ h)

theorem search_rows_mem {lm : LabelMaker} {p : SearchParams} {df : List Record}
    {lt : LabelTimes} {row : LabelRow} (h : search lm p df = .ok lt)
    (hrow : row ∈ lt.rows) :
    ∃ e ∈ uniqueKeys [] df, row ∈ searchEntity lm p e (entityPartition df e) := by
  rw [(search_ok_elim h).1, List.mem_flatten] at hrow
  obtain ⟨rows, hrows, hr⟩ := hrow
  rw [List.mem_map] at hrows
  obtain ⟨e, he, hre⟩ := hrows
  exact ⟨e, he, hre ▸ hr⟩

/-- Claim C1: for an entity whose records have timestamps at minutes
0, 5, 10 and 15, a search with window_size 10, gap 10 and the first
cutoff fixed at minute 0 emits exactly two label rows — one for the
window [0, 10) whose record subset is exactly the records at minutes 0
and 5, and one for [10, 20) whose subset is exactly the records at
minutes 10 and 15 — for any labeling function, any record amounts and
either drop_empty setting. -/
theorem claim_C1 (f : List Record → Int) (a b c d : Int) (de : Bool) :
    search ⟨f, "myfun", none, 10⟩ ⟨-1, .fixed 0, none, some 10, de⟩
        [⟨1, 0, a⟩, ⟨1, 5, b⟩, ⟨1, 10, c⟩, ⟨1, 15, d⟩]
      = .ok
          { rows := [⟨1, 0, .int (f [⟨1, 0, a⟩, ⟨1, 5, b⟩])⟩,
                     ⟨1, 10, .int (f [⟨1, 10, c⟩, ⟨1, 15, d⟩])⟩]
            label_col := "myfun"
            settings := ⟨"myfun", 10, 10, -1⟩
            transforms := [] }
    ∧ windowRecords [⟨1, 0, a⟩, ⟨1, 5, b⟩, ⟨1, 10, c⟩, ⟨1, 15, d⟩] 0 10
        = [⟨1, 0, a⟩, ⟨1, 5, b⟩]
    ∧ windowRecords [⟨1, 0, a⟩, ⟨1, 5, b⟩, ⟨1, 10, c⟩, ⟨1, 15, d⟩] 10 10
        = [⟨1, 10, c⟩, ⟨1, 15, d⟩] := by
  refine ⟨?_, rfl, rfl⟩
  cases de <;> rfl

/-- Claim C2: the record subset passed to the labeling function is
exactly the entity's records with timestamp in the half-open interval
[cutoff_time, cutoff_time + window_size); a record whose timestamp equals
cutoff_time + window_size is excluded, so with gap = window_size no
record is counted in two consecutive windows; and every row emitted by
the per-entity search carries the label computed on exactly that
subset. -/
theorem claim_C2 :
    (∀ (part : List Record) (c ws : Int) (r : Record),
        r ∈ windowRecords part c ws ↔ r ∈ part ∧ c ≤ r.time ∧ r.time < c + ws)
    ∧ (∀ (part : List Record) (c ws : Int) (r : Record),
        r.time = c + ws → r ∉ windowRecords part c ws)
    ∧ (∀ (part : List Record) (c ws : Int) (r : Record),
        r ∈ windowRecords part c ws → r ∉ windowRecords part (c + ws) ws)
    ∧ (∀ (lm : LabelMaker) (p : SearchParams) (e : Nat) (part : List Record)
        (row : LabelRow), row ∈ searchEntity lm p e part →
          row.entity = e ∧
          row.label
            = .int (lm.labeling_function
                (windowRecords part row.cutoff_time lm.window_size))) := by
  have hmem : ∀ (part : List Record) (c ws : Int) (r : Record),
      r ∈ windowRecords part c ws ↔ r ∈ part ∧ c ≤ r.time ∧ r.time < c + ws := by
    intro part c ws r
    simp [windowRecords, inWindow, List.mem_filter]
  refine ⟨hmem, ?_, ?_, ?_⟩
  · intro part c ws r ht hr
    have := ((hmem part c ws r).mp hr).2.2
    omega
  · intro part c ws r hr hr2
    have h1 := ((hmem part c ws r).mp hr).2.2
    have h2 := ((hmem part (c + ws) ws r).mp hr2).2.1
    omega
  · intro lm p e part row hrow
    obtain ⟨c, _, heq, _⟩ := searchEntity_mem hrow
    subst heq
    exact ⟨rfl, rfl⟩

/-- Witness for C2 at a concrete input: the record at minute 10 is not
in the window [0, 10) of the example records. -/
theorem claim_C2_witness :
    (⟨1, 10, 30⟩ : Record) ∉ windowRecords exRecords 0 10 :=
  claim_C2.2.1 exRecords 0 10 ⟨1, 10, 30⟩ (by decide)

theorem length_cutoffs (t0 B g : Int) :
    (cutoffs t0 B g).length = numCutoffs t0 B g := by
  rw [cutoffs, List.length_map, List.length_range]

theorem cutoffs_getElem {t0 B g : Int} {i : Nat} {c : Int}
    (h : (cutoffs t0 B g)[i]? = some c) :
    i < numCutoffs t0 B g ∧ c = t0 + (i : Int) * g := by
  have hlen : i < (cutoffs t0 B g).length := by
    obtain ⟨hl, -⟩ := List.getElem?_eq_some.mp h
    exact hl
  rw [length_cutoffs] at hlen
  rw [cutoffs, List.getElem?_map, List.getElem?_range hlen] at h
  refine ⟨hlen, ?_⟩
  injection h with h
  exact h.symm

theorem searchEntity_complete {lm : LabelMaker} {p : SearchParams} {e : Nat}
    {part : List Record} {c : Int} (hde : p.drop_empty = false)
    (hn : p.num_examples_per_instance = -1)
    (hc : c ∈ cutoffs (resolveMinData p.minimum_data e (firstTimeOf part))
        (entityBound p part) (p.gap.getD lm.window_size)) :
    (⟨e, c, .int (lm.labeling_function (windowRecords part c lm.window_size))⟩
        : LabelRow) ∈ searchEntity lm p e part := by
  unfold searchEntity
  rw [hde]
  simp only [Bool.false_eq_true, if_false]
  unfold applyNumBound
  rw [hn]
  simp only [show (-1 : Int) < 0 by decide, if_pos]
  rw [List.mem_map]
  refine ⟨(c, windowRecords part c lm.window_size), ?_, rfl⟩
  rw [List.mem_map]
  exact ⟨c, hc, rfl⟩

theorem rows_of_entity_sub {lm : LabelMaker} {p : SearchParams}
    {df : List Record} {lt : LabelTimes} (h : search lm p df = .ok lt)
    {e : Nat} (he : e ∈ uniqueKeys [] df) :
    searchEntity lm p e (entityPartition df e) ⊆ lt.rows := by
  intro row hrow
  rw [(search_ok_elim h).1, List.mem_flatten]
  exact ⟨searchEntity lm p e (entityPartition df e),
    List.mem_map.mpr ⟨e, he, rfl⟩, hrow⟩

/-- Claim C3: for every valid configuration (positive resolved gap) and
every entity, every cutoff time emitted by the search is at least that
entity's resolved first cutoff time (resolved from minimum_data,
including a per-entity mapping lookup, defaulting to the entity's first
record timestamp) and at most maximum_data whenever maximum_data is
set. -/
theorem claim_C3 (lm : LabelMaker) (p : SearchParams) (df : List Record)
    (lt : LabelTimes) (hg : 0 < p.gap.getD lm.window_size)
    (hok : search lm p df = .ok lt) :
    ∀ row ∈ lt.rows,
      resolveMinData p.minimum_data row.entity
          (firstTimeOf (entityPartition df row.entity)) ≤ row.cutoff_time
      ∧ ∀ m : Int, p.maximum_data = some m → row.cutoff_time ≤ m := by
  intro row hrow
  obtain ⟨e, _, hse⟩ := search_rows_mem hok hrow
  obtain ⟨c, hc, heq, -⟩ := searchEntity_mem hse
  subst heq
  refine ⟨cutoffs_ge_start hg hc, ?_⟩
  intro m hm
  have hb := cutoffs_le_bound hg hc
  simp only [entityBound, hm] at hb
  exact hb

/-- Witness for C3 at a concrete input: the emitted row at cutoff 0 of
the example search is at or after the resolved first cutoff time. -/
theorem claim_C3_witness :
    0 < exParams.gap.getD exMaker.window_size
    ∧ resolveMinData exParams.minimum_data 1
        (firstTimeOf (entityPartition exRecords 1)) ≤ 0 :=
  ⟨by decide,
    (claim_C3 exMaker exParams exRecords exTable (by decide) rfl
      ⟨1, 0, .int 30⟩ (by decide)).1⟩

/-- Claim C4: consecutive windows produced by the search for the same
entity are one gap apart; the gap option defaults to window_size when
unspecified; when gap is at least window_size (so including the default)
consecutive windows never overlap, and when gap is less than window_size
they overlap on exactly the interval [c + gap, c + window_size), of
length window_size - gap. -/
theorem claim_C4 (t0 B g ws c c' : Int) (i : Nat) (hg : 0 < g)
    (hc : (cutoffs t0 B g)[i]? = some c)
    (hc' : (cutoffs t0 B g)[i + 1]? = some c') :
    c' = c + g
    ∧ (∀ (lm : LabelMaker) (q : SearchParams),
        q.gap = none → q.gap.getD lm.window_size = lm.window_size)
    ∧ (ws ≤ g → ∀ t : Int, ¬(inWindow c ws t = true ∧ inWindow c' ws t = true))
    ∧ (g < ws →
        (∀ t : Int, (inWindow c ws t = true ∧ inWindow c' ws t = true)
          ↔ (c + g ≤ t ∧ t < c + ws))
        ∧ (c + ws) - (c + g) = ws - g) := by
  obtain ⟨-, hceq⟩ := cutoffs_getElem hc
  obtain ⟨-, hceq'⟩ := cutoffs_getElem hc'
  have hstep : c' = c + g := by
    rw [hceq, hceq']
    push_cast
    ring
  subst hstep
  refine ⟨rfl, ?_, ?_, ?_⟩
  · intro lm q hq
    rw [hq]
    rfl
  · intro hws t ⟨h1, h2⟩
    simp only [inWindow, Bool.and_eq_true, decide_eq_true_eq] at h1 h2
    omega
  · intro hws
    constructor
    · intro t
      simp only [inWindow, Bool.and_eq_true, decide_eq_true_eq]
      omega
    · ring

/-- Witness for C4 at a concrete input: the second candidate cutoff of
the example search is the first plus the gap. -/
theorem claim_C4_witness : (10 : Int) = 0 + 10 :=
  (claim_C4 0 15 10 10 0 10 0 (by decide) (by decide) (by decide)).1

/-- Counterexample for C5 as stated: with drop_empty = false but
num_examples_per_instance = 1, the example search emits a single row at
cutoff 0, although the cutoff 10 is also a candidate within the
admissible range — so not every candidate window in range produces a
label row. -/
theorem claim_C5_counterexample :
    exParamsCapped.drop_empty = false
    ∧ search exMaker exParamsCapped exRecords
        = .ok ⟨[⟨1, 0, .int 30⟩], "total_spent", ⟨"total_spent", 10, 10, 1⟩, []⟩
    ∧ (10 : Int) ∈ cutoffs
        (resolveMinData exParamsCapped.minimum_data 1
          (firstTimeOf (entityPartition exRecords 1)))
        (entityBound exParamsCapped (entityPartition exRecords 1))
        (exParamsCapped.gap.getD exMaker.window_size)
    ∧ (10 : Int) ∉ List.map LabelRow.cutoff_time
        ([⟨1, 0, .int 30⟩] : List LabelRow) :=
  ⟨rfl, rfl, by decide, by decide⟩

/-- Claim C5 (amended): if drop_empty is true then no emitted label row
corresponds to a window containing zero records; and if drop_empty is
false and num_examples_per_instance is unbounded (-1), every candidate
window within the admissible cutoff range produces a label row,
including windows containing zero records. -/
theorem claim_C5 (lm : LabelMaker) (p : SearchParams) (df : List Record)
    (lt : LabelTimes) (hok : search lm p df = .ok lt) :
    (p.drop_empty = true → ∀ row ∈ lt.rows,
        windowRecords (entityPartition df row.entity) row.cutoff_time
          lm.window_size ≠ [])
    ∧ (p.drop_empty = false → p.num_examples_per_instance = -1 →
        ∀ e ∈ uniqueKeys [] df,
          ∀ c ∈ cutoffs (resolveMinData p.minimum_data e
              (firstTimeOf (entityPartition df e)))
            (entityBound p (entityPartition df e))
            (p.gap.getD lm.window_size),
            ∃ row ∈ lt.rows, row.entity = e ∧ row.cutoff_time = c) := by
  constructor
  · intro hde row hrow
    obtain ⟨e, -, hse⟩ := search_rows_mem hok hrow
    obtain ⟨c, -, heq, hne⟩ := searchEntity_mem hse
    subst heq
    exact hne hde
  · intro hde hn e he c hc
    refine ⟨⟨e, c, .int (lm.labeling_function
      (windowRecords (entityPartition df e) c lm.window_size))⟩,
      rows_of_entity_sub hok he (searchEntity_complete hde hn hc), rfl, rfl⟩

/-- Witness for C5 (amended) at a concrete input: the emitted row at
cutoff 0 of the example search has a nonempty underlying window. -/
theorem claim_C5_witness :
    windowRecords (entityPartition exRecords 1) 0 exMaker.window_size ≠ [] :=
  (claim_C5 exMaker exParams exRecords exTable rfl).1 rfl
    ⟨1, 0, .int 30⟩ (by decide)

/-- Claim C6: for every input some of whose records lie in an entity
partition whose timestamps are not monotonically non-decreasing, the
search fails fast with an UnsortedInputError, aborting the whole search
rather than emitting any label rows. -/
theorem claim_C6 (lm : LabelMaker) (p : SearchParams) (df : List Record)
    (h : ∃ r ∈ df, isSortedTimes (entityPartition df r.entity) = false) :
    search lm p df = .error .unsortedInput := by
  obtain ⟨r, hr, hs⟩ := h
  have he : r.entity ∈ uniqueKeys [] df := by
    rcases uniqueKeys_complete df [] r hr with hmem | hmem
    · exact absurd hmem (List.not_mem_nil _)
    · exact hmem
  have hcond : ¬((uniqueKeys [] df).all
      (fun e => isSortedTimes (entityPartition df e)) = true) := by
    rw [List.all_eq_true]
    intro hall
    have := hall r.entity he
    rw [hs] at this
    exact Bool.false_ne_true this
  simp only [search]
  rw [if_neg hcond]

/-- Witness for C6 at a concrete input: the unsorted example input makes
the search fail with an UnsortedInputError. -/
theorem claim_C6_witness :
    search exMaker exParams exUnsorted = .error .unsortedInput :=
  claim_C6 exMaker exParams exUnsorted ⟨⟨1, 5, 10⟩, by decide, by decide⟩

/-- Claim C7: for every label table and every call to bin with a
caller-supplied list of bin names, if the number of supplied names
differs from the number of bins then bin fails with a
ConfigurationError — for every table, hence before any processing of the
table begins. -/
theorem claim_C7 (lt : LabelTimes) (b : Bins) (q : Bool) (ns : List String)
    (h : ns.length ≠ b.numBins) :
    binT lt b q (some ns) = .error .configuration := by
  simp only [binT]
  rw [if_pos h]

/-- Witness for C7 at a concrete input: two names for three bins is
rejected. -/
theorem claim_C7_witness :
    binT exTable (.count 3) false (some ["low", "high"]) = .error .configuration :=
  claim_C7 exTable (.count 3) false ["low", "high"] (by decide)

/-- Claim C8: running the search twice on identical sorted input with
identical configuration (the labeling function being a fixed pure
function of the window) yields an identical label table. -/
theorem claim_C8 (lm : LabelMaker) (p1 p2 : SearchParams)
    (df1 df2 : List Record) (hp : p1 = p2) (hdf : df1 = df2) :
    search lm p1 df1 = search lm p2 df2 := by
  rw [hp, hdf]

/-- Witness for C8 at a concrete input: two runs of the example search
coincide. -/
theorem claim_C8_witness :
    search exMaker exParams exRecords = search exMaker exParams exRecords :=
  claim_C8 exMaker exParams exParams exRecords exRecords rfl rfl

/-- Claim C9: a transform call (threshold, lead shift, bin or sample)
leaves every table already in the store completely unchanged — rows,
columns and provenance metadata — and, when it succeeds on a valid
index, appends the new table it returns. -/
theorem claim_C9 (store : List LabelTimes) (i : Nat) (tr : Transform) :
    (transformStep store i tr).take store.length = store
    ∧ (∀ j : Nat, j < store.length →
        (transformStep store i tr)[j]? = store[j]?)
    ∧ (∀ lt lt2 : LabelTimes, store.get? i = some lt →
        applyTransform tr lt = .ok lt2 →
        (transformStep store i tr)[store.length]? = some lt2) := by
  refine ⟨?_, ?_, ?_⟩
  · unfold transformStep
    cases hsi : (store.get? i).map (applyTransform tr) with
    | none => exact List.take_length store
    | some res =>
      cases res with
      | error er => exact List.take_length store
      | ok lt2 => exact List.take_left store [lt2]
  · intro j hj
    unfold transformStep
    cases hsi : (store.get? i).map (applyTransform tr) with
    | none => rfl
    | some res =>
      cases res with
      | error er => rfl
      | ok lt2 => exact List.getElem?_append_left hj
  · intro lt lt2 h1 h2
    unfold transformStep
    rw [h1]
    rw [Option.map_some']
    rw [h2]
    rw [List.getElem?_append_right (Nat.le_refl store.length)]
    simp

/-- Witness for C9 at a concrete input: applying a threshold to the
example table in a one-table store leaves the stored original intact. -/
theorem claim_C9_witness :
    (transformStep [exTable] 0 (Transform.threshold 100))[0]?
      = ([exTable] : List LabelTimes)[0]? :=
  (claim_C9 [exTable] 0 (Transform.threshold 100)).2.1 0 (by decide)

/-- Claim C10: for every search performed by a LabelMaker constructed
without an explicit label_name, the label column of the output table is
named after the labeling function itself. -/
theorem claim_C10 (lm : LabelMaker) (p : SearchParams) (df : List Record)
    (lt : LabelTimes) (hname : lm.label_name = none)
    (hok : search lm p df = .ok lt) :
    lt.label_col = lm.function_name := by
  have h := (search_ok_elim hok).2
  rw [hname] at h
  exact h

/-- Witness for C10 at a concrete input: the example search's label
column is named total_spent, the labeling function's name. -/
theorem claim_C10_witness : exTable.label_col = exMaker.function_name :=
  claim_C10 exMaker exParams exRecords exTable rfl rfl
